import Mathlib

/-!
# Verification of the lwsdk websocket-broker core

Shallow embedding of the `ConcurrentQueue<T>` primitive
(`src/headers/ConcurrentQueue.tpp`) and of the connection-table /
message-broker core of the websocket server (`src/src/Webserver.cpp`),
together with theorems settling the testable properties stated in the
specification.

Concurrency is modelled sequentially: each queue operation is a function
from the queue state (items, capacity, interrupted flag) to a result and a
new state.  A blocking wait whose unblock condition cannot be satisfied by
the current state is rendered as a distinguished `wouldBlock` outcome,
since no other thread can run during the modelled operation.
-/

namespace Lwsdk

namespace ConcurrentQueue

/-- State of a `ConcurrentQueue<T>`: the `std::deque<T> items`, the
`int capacity` (0 means unbounded; the constructor clamps negatives to 0)
and the `std::atomic_bool interrupted` flag. -/
structure QState (T : Type) where
  items : List T
  capacity : Nat
  interrupted : Bool
deriving Repr, DecidableEq

/-- `ConcurrentQueue( int capacity )`: `this->capacity = capacity > 0 ? capacity : 0;`
and `interrupted = false;`. -/
def mkQueue (T : Type) (capacity : Int) : QState T :=
  ⟨[], if capacity > 0 then capacity.toNat else 0, false⟩

/-- `interrupt()`: sets `interrupted = true` and `cv.notify_all()`. -/
def interrupt {T : Type} (q : QState T) : QState T :=
  { q with interrupted := true }

/-- The unblock condition of the `cv.wait` in every `take` overload:
`interrupted || !items.empty()`.  After `interrupt()` it holds, so every
waiter blocked in a `take` wakes up. -/
def takeUnblockCond {T : Type} (q : QState T) : Bool :=
  q.interrupted || !q.items.isEmpty

/-- The unblock condition of the `cv.wait` in both `offer` overloads:
`interrupted || capacity == 0 || items.size() < capacity`. -/
def offerUnblockCond {T : Type} (q : QState T) : Bool :=
  q.interrupted || q.capacity == 0 || decide (q.items.length < q.capacity)

/-- Outcome of the unbounded `T take( bool remove )` overload. -/
inductive TakeResult (T : Type) where
  /-- The head item was returned normally. -/
  | value (v : T)
  /-- `throw InterruptedException(...)`. -/
  | interrupted
  /-- The `cv.wait` cannot unblock in the current state (queue empty and
  not interrupted): the call blocks indefinitely. -/
  | wouldBlock
deriving Repr, DecidableEq

/-- `T take( bool remove )`: waits for `interrupted || !items.empty()`,
throws `InterruptedException` if `interrupted` (checked first, so an
interrupted queue throws even when non-empty), otherwise returns
`items.front()`, popping it only when `remove` is true. -/
def take {T : Type} (q : QState T) (remove : Bool) : TakeResult T × QState T :=
  if q.interrupted then (.interrupted, q)
  else
    match q.items with
    | [] => (.wouldBlock, q)
    | v :: rest => (.value v, { q with items := if remove then rest else v :: rest })

/-- `Result<T> take( uint32_t timeoutMsec, bool remove )`: fails fast with
`nullopt` when `timeoutMsec == 0 && items.empty()`; otherwise waits, and
returns `nullopt` on timeout or interruption, else the head item (popped
only when `remove`). -/
def takeTimeout {T : Type} (q : QState T) (timeoutMsec : Nat) (remove : Bool) :
    Option T × QState T :=
  if timeoutMsec == 0 && q.items.isEmpty then (none, q)
  else if q.interrupted then (none, q)
  else
    match q.items with
    | [] => (none, q)
    | v :: rest => (some v, { q with items := if remove then rest else v :: rest })

/-- `T take( uint32_t timeoutMsec, const T& timeoutVal, bool remove )`:
like `takeTimeout` but returns `timeoutVal` on timeout or interruption. -/
def takeTimeoutVal {T : Type} (q : QState T) (timeoutMsec : Nat) (timeoutVal : T)
    (remove : Bool) : T × QState T :=
  if timeoutMsec == 0 && q.items.isEmpty then (timeoutVal, q)
  else if q.interrupted then (timeoutVal, q)
  else
    match q.items with
    | [] => (timeoutVal, q)
    | v :: rest => (v, { q with items := if remove then rest else v :: rest })

/-- `void offer( T item )`: under the lock it first executes
`interrupted = false;`, then waits for
`interrupted || capacity == 0 || items.size() < capacity`.  Sequentially
the interrupted disjunct is false after the clear, so the call either
appends the item (`some ()`) or blocks forever on a full bounded queue
(`none`); in both cases the interrupted flag has already been cleared. -/
def offer {T : Type} (q : QState T) (item : T) : Option Unit × QState T :=
  let q1 : QState T := { q with interrupted := false }
  if q1.capacity = 0 ∨ q1.items.length < q1.capacity then
    (some (), { q1 with items := q1.items ++ [item] })
  else (none, q1)

/-- `bool offer( T item, uint32_t timeoutMsec )`: first executes
`interrupted = false;`, then `cv.wait_for` on the same condition; on
timeout it returns false, otherwise appends the item and returns true.
Sequentially a full bounded queue can only time out, whatever
`timeoutMsec` is. -/
def offerTimeout {T : Type} (q : QState T) (item : T) (timeoutMsec : Nat) :
    Bool × QState T :=
  let q1 : QState T := { q with interrupted := false }
  if q1.capacity = 0 ∨ q1.items.length < q1.capacity then
    (true, { q1 with items := q1.items ++ [item] })
  else (false, q1)

/-- Sequence of `offer(item, 0)` calls, returning the individual results
and the final state. -/
def offerAll {T : Type} (q : QState T) : List T → List Bool × QState T
  | [] => ([], q)
  | x :: rest =>
    let r := offerTimeout q x 0
    let rr := offerAll r.2 rest
    (r.1 :: rr.1, rr.2)

end ConcurrentQueue

namespace Webserver

open ConcurrentQueue

/-- `#define MAX_PAYLOAD 4096` — size of the websocket serialization buffers. -/
def MAX_PAYLOAD : Nat := 4096

/-- `#define MAX_CLIENTS 64` — maximum number of accepted connections. -/
def MAX_CLIENTS : Nat := 64

/-- `2^32`: modulus of the `uint32_t connectionIdSeq` counter. -/
def UINT32_LIMIT : Nat := 2 ^ 32

/-- `struct WSMessage { uint32_t connectionId; std::string msg; }`.
Payload bytes are modelled as a list of naturals. -/
structure WSMessage where
  connectionId : Nat
  msg : List Nat
deriving Repr, DecidableEq

/-- `struct WSConnection`: connection id, the opaque `struct lws *wsi`
handle (modelled as a bare number, used only for identity), the `inbox`
reassembly buffer, the optional pending `outbox` payload and the `outpos`
send cursor. -/
structure WSConnection where
  id : Nat
  wsi : Nat
  inbox : List Nat
  outbox : Option (List Nat)
  outpos : Nat
deriving Repr, DecidableEq

/-- The `connectionIdSeq` counter plus the `std::map<uint32_t, WSConnection>
wsConnections` table, kept as its entry list in ascending key order. -/
structure ConnTable where
  connectionIdSeq : Nat
  conns : List WSConnection
deriving Repr, DecidableEq

/-- `std::map::emplace` on the ordered entry list: inserts at the ordered
position, or leaves the map unchanged when the key already exists (emplace
does not overwrite). -/
def emplaceConn : List WSConnection → WSConnection → List WSConnection
  | [], c => [c]
  | x :: rest, c =>
    if c.id < x.id then c :: x :: rest
    else if c.id = x.id then x :: rest
    else x :: emplaceConn rest c

/-- `wsConnections.find( id )` on the entry list. -/
def findConn (conns : List WSConnection) (id : Nat) : Option WSConnection :=
  conns.find? (fun c => c.id == id)

/-- `addConnection( struct lws * wsi )`: rejects (returns null) when
`wsConnections.size() >= MAX_CLIENTS`; otherwise bumps the sequence past 0
if it wrapped, takes `id = connectionIdSeq++` (uint32 arithmetic), emplaces
a fresh `WSConnection(id, wsi)` and returns `&wsConnections.find(id)->second`. -/
def addConnection (t : ConnTable) (wsi : Nat) : Option WSConnection × ConnTable :=
  if MAX_CLIENTS ≤ t.conns.length then (none, t)
  else
    let seq0 := if t.connectionIdSeq = 0 then (t.connectionIdSeq + 1) % UINT32_LIMIT
                else t.connectionIdSeq
    let id := seq0
    let seq1 := (seq0 + 1) % UINT32_LIMIT
    let conns1 := emplaceConn t.conns ⟨id, wsi, [], none, 0⟩
    (findConn conns1 id, ⟨seq1, conns1⟩)

/-- `removeConnection( uint32_t id )`: `wsConnections.erase( id ) > 0`. -/
def removeConnection (t : ConnTable) (id : Nat) : Bool × ConnTable :=
  let conns1 := t.conns.filter (fun c => c.id != id)
  (decide (conns1.length < t.conns.length), ⟨t.connectionIdSeq, conns1⟩)

/-- One accepted websocket client that connects and immediately
disconnects: `addConnection` followed by `removeConnection` of the id just
assigned (on rejection the table is left as is). -/
def addRemoveCycle (t : ConnTable) : ConnTable :=
  match addConnection t 0 with
  | (none, t1) => t1
  | (some c, t1) => (removeConnection t1 c.id).2

/-- `n` repetitions of `addRemoveCycle`. -/
def addRemoveCycles : Nat → ConnTable → ConnTable
  | 0, t => t
  | n + 1, t => addRemoveCycles n (addRemoveCycle t)

/-- The first connection ever accepted: id 1, modelled with lws handle 100. -/
def firstConn : WSConnection := ⟨1, 100, [], none, 0⟩

/-- The body of the `for ( auto& conn : wsConnections )` loop in
`mainServerThread` draining `outgoingMessages`: a connection still holding
an outbox is skipped (`continue`), otherwise a connection matching the
destination (`m.connectionId == 0 || m.connectionId == conn.first`) gets
the shared payload as its outbox with cursor 0. -/
def deliverStep (m : WSMessage) (c : WSConnection) : WSConnection :=
  if c.outbox.isSome then c
  else if m.connectionId == 0 || m.connectionId == c.id then
    { c with outbox := some m.msg, outpos := 0 }
  else c

/-- Effect of draining one outgoing message over the whole connection
table (the `for` loop visits every entry once). -/
def deliverMessage (m : WSMessage) (conns : List WSConnection) : List WSConnection :=
  conns.map (deliverStep m)

/-- One chunk written by `LWS_CALLBACK_SERVER_WRITEABLE`: payload slice,
first-fragment flag and final-fragment flag passed to `lws_write_ws_flags`. -/
structure Chunk where
  data : List Nat
  first : Bool
  final : Bool
deriving Repr, DecidableEq

/-- The `LWS_CALLBACK_SERVER_WRITEABLE` body for a connection holding
outbox `s` with cursor `pos`:
`start = outpos`, `end = min(s.size(), start + MAX_PAYLOAD)`,
`length = end - start`, `outpos = end`, chunk bytes `s[start..end)`,
`first = (start == 0)`, `final = (start + MAX_PAYLOAD >= s.length())`.
Returns the chunk and the updated cursor. -/
def writeChunk (s : List Nat) (pos : Nat) : Chunk × Nat :=
  let endp := min s.length (pos + MAX_PAYLOAD)
  let len := endp - pos
  (⟨(s.drop pos).take len, pos == 0, decide (s.length ≤ pos + MAX_PAYLOAD)⟩, endp)

/-- The chunks written across successive writable callbacks, starting at
cursor `pos`: after a non-final chunk the handler requests another
writable callback (`lws_callback_on_writable`), after the final chunk it
clears the outbox.  The callback chain is driven with explicit fuel; every
non-final step advances the cursor by `MAX_PAYLOAD ≥ 1`, so fuel
`s.length` always suffices. -/
def writeAllChunks (s : List Nat) (pos : Nat) : Nat → List Chunk
  | 0 => [(writeChunk s pos).1]
  | fuel + 1 =>
    let r := writeChunk s pos
    if r.1.final then [r.1]
    else r.1 :: writeAllChunks s r.2 fuel

/-- All chunks written for a payload assigned to a connection's outbox
with cursor 0. -/
def connectionChunks (s : List Nat) : List Chunk := writeAllChunks s 0 s.length

/-- The `LWS_CALLBACK_RECEIVE` body: on a first fragment the inbox is
cleared, the fragment bytes are appended, and on a final fragment a
`WSMessage(connection->id, connection->inbox)` is offered (non-blocking)
to `incomingMessages` — the offer result is only logged.  The handler does
not consult the `userCallback` global: the `userCallback` parameter below
mirrors that global and is ignored exactly as in the source. -/
def handleReceive (userCallback : Bool) (conn : WSConnection)
    (q : QState WSMessage) (frag : List Nat) (first final : Bool) :
    WSConnection × QState WSMessage :=
  let inbox1 := if first then [] else conn.inbox
  let inbox2 := inbox1 ++ frag
  let conn1 : WSConnection := { conn with inbox := inbox2 }
  if final then (conn1, (offerTimeout q ⟨conn.id, inbox2⟩ 0).2)
  else (conn1, q)

/-- One iteration of `mainDispatcherThread`: a blocking
`incomingMessages.take()` whose result is handed to the user callback. -/
def mainDispatcherStep (q : QState WSMessage) : TakeResult WSMessage × QState WSMessage :=
  ConcurrentQueue.take q true

/-- `receiveMessage( uint32_t timeoutMsec )`:
`return userCallback ? nullopt : incomingMessages.take( timeoutMsec );`
(with the default `remove = true`). -/
def receiveMessage (userCallback : Bool) (q : QState WSMessage) (timeoutMsec : Nat) :
    Option WSMessage × QState WSMessage :=
  if userCallback then (none, q) else takeTimeout q timeoutMsec true

/-- Server lifecycle state relevant to `start()`: whether
`serverThread != nullptr`, the `keepWorking` flag, the two configured
ports and whether `Files::exists(webDir)` holds. -/
structure ServerState where
  serverThreadExists : Bool
  keepWorking : Bool
  port : Int
  sslPort : Int
  webDirExists : Bool
deriving Repr, DecidableEq

/-- `start()`: returns immediately when `serverThread != nullptr`; then
throws (`some errorMessage`, state unchanged) when `port == sslPort`, when
`port <= 0 && sslPort <= 0`, or when the web directory does not exist;
otherwise sets `keepWorking = true` and spawns the server thread. -/
def start (s : ServerState) : Option String × ServerState :=
  if s.serverThreadExists then (none, s)
  else if s.port = s.sslPort then (some "port and sslPort cannot be the same.", s)
  else if s.port ≤ 0 ∧ s.sslPort ≤ 0 then (some "At least one port must be valid.", s)
  else if ¬ s.webDirExists then (some "Invalid web directory", s)
  else (none, { s with keepWorking := true, serverThreadExists := true })

/-- Modelled from the spec: the invalid-configuration condition of the
claim — "both ports disabled, the two ports equal, or the static web
directory missing" — written from the spec's words to be compared with the
`start` code above. -/
def invalidConfigSpec (s : ServerState) : Prop :=
  (s.port ≤ 0 ∧ s.sslPort ≤ 0) ∨ s.port = s.sslPort ∨ ¬ s.webDirExists

instance (s : ServerState) : Decidable (invalidConfigSpec s) := by
  unfold invalidConfigSpec; infer_instance

/-- A table already holding `MAX_CLIENTS` live connections (used to
evaluate the rejection path on a concrete input). -/
def fullTable : ConnTable :=
  ⟨500, (List.range MAX_CLIENTS).map (fun i => ⟨i + 1, 0, [], none, 0⟩)⟩

end Webserver

/-!
## Theorems about the `ConcurrentQueue` model
-/

namespace ConcurrentQueue

/-- Helper: a sequence of non-blocking offers into a queue with enough
free capacity succeeds at every step and appends the items in order,
leaving the interrupted flag clear. -/
theorem offerAll_within_capacity : ∀ (xs : List Nat) (q : QState Nat),
    q.interrupted = false → q.capacity ≠ 0 →
    q.items.length + xs.length ≤ q.capacity →
    offerAll q xs = (List.replicate xs.length true, ⟨q.items ++ xs, q.capacity, false⟩) := by
  intro xs
  induction xs with
  | nil =>
    intro q hi hc hlen
    obtain ⟨items, cap, intr⟩ := q
    simp only [QState.mk.injEq] at hi ⊢
    simp [offerAll, hi]
  | cons x rest ih =>
    intro q hi hc hlen
    obtain ⟨items, cap, intr⟩ := q
    simp only [List.length_cons] at hlen
    have hlt : items.length < cap := by omega
    have hstep : offerTimeout (⟨items, cap, intr⟩ : QState Nat) x 0
        = (true, ⟨items ++ [x], cap, false⟩) := by
      simp [offerTimeout, Or.inr hlt]
    have hrest := ih ⟨items ++ [x], cap, false⟩ rfl hc
      (by simp only [List.length_append, List.length_singleton]; omega)
    simp only [offerAll, hstep, hrest, List.replicate_succ, List.append_assoc,
      List.singleton_append, List.length_cons]

/-- Helper: a non-blocking offer on a full bounded queue returns false and
leaves the items unchanged (while clearing the interrupted flag on entry). -/
theorem offerTimeout_full (q : QState Nat) (y t : Nat) (hc : q.capacity ≠ 0)
    (hfull : q.capacity ≤ q.items.length) :
    offerTimeout q y t = (false, ⟨q.items, q.capacity, false⟩) := by
  obtain ⟨items, cap, intr⟩ := q
  simp only at hc hfull
  have hcond : ¬(cap = 0 ∨ items.length < cap) := by omega
  simp [offerTimeout, hcond]

/-- C5 counterexample: on a full (capacity 1, one item) queue whose
interrupted flag is set, `offer(item, 0)` returns false (times out) and
nevertheless leaves the interrupted flag CLEARED — both `offer` overloads
execute `interrupted = false;` on entry, before waiting — refuting the
claim that a failed offer leaves the interrupted flag set. -/
theorem offer_timeout_clears_interrupt_cex :
    (offerTimeout (⟨[7], 1, true⟩ : QState Nat) 8 0).1 = false ∧
    (offerTimeout (⟨[7], 1, true⟩ : QState Nat) 8 0).2.interrupted = false := by
  decide

/-- C5 (amended): after `interrupt()` the queue stays interrupted for
takes — any blocking `take` signals `InterruptedException` — but the flag
is cleared by the NEXT `offer` call of either overload, successful or not,
because both overloads clear it on entry before waiting. -/
theorem interrupt_persists_until_any_offer (q : QState Nat) (x t : Nat) (r : Bool) :
    (take (interrupt q) r).1 = TakeResult.interrupted ∧
    (offerTimeout q x t).2.interrupted = false ∧
    (offer q x).2.interrupted = false := by
  refine ⟨by simp [take, interrupt], ?_, ?_⟩
  · simp only [offerTimeout]
    split <;> rfl
  · simp only [offer]
    split <;> rfl

/-- C6: on an interrupted queue (interrupt called, flag still set) the
unbounded `take()` raises `InterruptedException` — a signal distinct from
any timeout — rather than returning an item, even when the queue is
non-empty (`q` ranges over all states, non-empty included), it consumes
nothing, and `interrupt()` makes the wait conditions of all blocked
`take`/`offer` waiters true, waking them all. -/
theorem take_after_interrupt (q : QState Nat) (r : Bool) :
    (interrupt q).interrupted = true ∧
    (take (interrupt q) r).1 = TakeResult.interrupted ∧
    (take (interrupt q) r).2 = interrupt q ∧
    takeUnblockCond (interrupt q) = true ∧
    offerUnblockCond (interrupt q) = true := by
  simp [interrupt, take, takeUnblockCond, offerUnblockCond]

/-- C7: a queue built with capacity `N > 0` accepts `N` non-blocking
offers (all return true, items kept in order), and the next `offer(y, 0)`
returns false immediately, leaving the queue contents unchanged. -/
theorem queue_capacity_bound (N : Nat) (xs : List Nat) (y : Nat)
    (hN : 0 < N) (hxs : xs.length = N) :
    (offerAll (mkQueue Nat N) xs).1 = List.replicate N true ∧
    (offerAll (mkQueue Nat N) xs).2.items = xs ∧
    (offerTimeout (offerAll (mkQueue Nat N) xs).2 y 0).1 = false ∧
    (offerTimeout (offerAll (mkQueue Nat N) xs).2 y 0).2.items = xs := by
  have hpos : (0 : Int) < (N : Int) := by exact_mod_cast hN
  have hmk : mkQueue Nat (N : Int) = (⟨[], N, false⟩ : QState Nat) := by
    simp [mkQueue, hpos]
  have hfill := offerAll_within_capacity xs ⟨[], N, false⟩ rfl hN.ne'
    (by simp [hxs])
  have hfull := offerTimeout_full ⟨xs, N, false⟩ y 0 hN.ne'
    (le_of_eq hxs.symm)
  rw [hmk, hfill]
  simp [hxs, hfull]

/-- Witness for C7 at `N = 2`, `xs = [10, 20]`, `y = 5`. -/
theorem queue_capacity_bound_witness :
    (0 < 2 ∧ ([10, 20] : List Nat).length = 2) ∧
    ((offerAll (mkQueue Nat 2) [10, 20]).1 = List.replicate 2 true ∧
     (offerAll (mkQueue Nat 2) [10, 20]).2.items = [10, 20] ∧
     (offerTimeout (offerAll (mkQueue Nat 2) [10, 20]).2 5 0).1 = false ∧
     (offerTimeout (offerAll (mkQueue Nat 2) [10, 20]).2 5 0).2.items = [10, 20]) :=
  ⟨by decide, queue_capacity_bound 2 [10, 20] 5 (by decide) (by decide)⟩

/-- C10 counterexample: on the non-empty queue `⟨[5], 0, true⟩` whose
interrupted flag is set, `take(remove = false)` does NOT return the head
item 5: the unbounded overload throws `InterruptedException`, the optional
overload returns the empty value, and the default-value overload returns
the timeout value 9 — refuting the claim for every non-empty queue. -/
theorem take_peek_interrupted_cex :
    (take (⟨[5], 0, true⟩ : QState Nat) false).1 = TakeResult.interrupted ∧
    (takeTimeout (⟨[5], 0, true⟩ : QState Nat) 3 false).1 = none ∧
    (takeTimeoutVal (⟨[5], 0, true⟩ : QState Nat) 3 9 false).1 = 9 := by
  decide

/-- C10 (amended): on a non-empty queue whose interrupted flag is clear,
`take(remove = false)` returns the head item and leaves the whole queue
state unchanged, in each of the three overloads; with `remove = true` each
overload pops the head. -/
theorem take_peek_preserves_queue (v : Nat) (rest : List Nat) (cap t d : Nat) :
    take (⟨v :: rest, cap, false⟩ : QState Nat) false
      = (TakeResult.value v, ⟨v :: rest, cap, false⟩) ∧
    takeTimeout (⟨v :: rest, cap, false⟩ : QState Nat) t false
      = (some v, ⟨v :: rest, cap, false⟩) ∧
    takeTimeoutVal (⟨v :: rest, cap, false⟩ : QState Nat) t d false
      = (v, ⟨v :: rest, cap, false⟩) ∧
    (take (⟨v :: rest, cap, false⟩ : QState Nat) true).2.items = rest ∧
    (takeTimeout (⟨v :: rest, cap, false⟩ : QState Nat) t true).2.items = rest ∧
    (takeTimeoutVal (⟨v :: rest, cap, false⟩ : QState Nat) t d true).2.items = rest := by
  simp [take, takeTimeout, takeTimeoutVal]

end ConcurrentQueue

/-!
## Theorems about the `Webserver` model
-/

namespace Webserver

open ConcurrentQueue

/-- C2: while a connection still holds a pending outbox (a send is in
flight), draining any further outgoing message — broadcast
(`connectionId = 0`) or targeted at that connection's id — leaves that
connection's table entry, in particular its outbox payload and its send
cursor, unchanged: the message is skipped for it, never queued. -/
theorem busy_connection_unchanged (m : WSMessage) (conns : List WSConnection)
    (i : Nat) (c : WSConnection) (hc : conns[i]? = some c)
    (hbusy : c.outbox.isSome = true) :
    (deliverMessage m conns)[i]? = some c := by
  simp only [deliverMessage, List.getElem?_map, hc, Option.map_some']
  simp [deliverStep, hbusy]

/-- Witness for C2: a broadcast over a single busy connection. -/
theorem busy_connection_unchanged_witness :
    (([⟨1, 0, [], some [9], 2⟩] : List WSConnection)[0]? = some ⟨1, 0, [], some [9], 2⟩ ∧
      ((⟨1, 0, [], some [9], 2⟩ : WSConnection).outbox.isSome = true)) ∧
    (deliverMessage ⟨0, [3]⟩ [⟨1, 0, [], some [9], 2⟩])[0]? = some ⟨1, 0, [], some [9], 2⟩ :=
  ⟨⟨by decide, by decide⟩,
    busy_connection_unchanged ⟨0, [3]⟩ [⟨1, 0, [], some [9], 2⟩] 0 ⟨1, 0, [], some [9], 2⟩
      (by decide) (by decide)⟩

/-- C3 counterexample: with a user message-callback registered
(`userCallback = true`), a completed inbound message IS placed on the
inbound queue: receiving a single first-and-final fragment `[1, 2]` on
connection 7 with the inbound queue empty leaves the message sitting in
the queue — refuting "never placed on the inbound queue" in callback
mode.  The `LWS_CALLBACK_RECEIVE` handler never consults the callback
registration. -/
theorem receive_enqueues_with_callback_cex :
    (handleReceive true ⟨7, 0, [], none, 0⟩ ⟨[], 100, false⟩ [1, 2] true true).2.items
      = [⟨7, [1, 2]⟩] := by
  decide

/-- C3 (amended): a completed inbound message is always offered
(non-blocking) to the inbound queue, in callback mode exactly as in poll
mode — the receive path is independent of the callback registration; in
callback mode the dispatcher thread consumes the queue with a blocking
`take()` and `receiveMessage` returns empty without touching the queue. -/
theorem receive_always_enqueues (cb cb' : Bool) (conn : WSConnection)
    (q : QState WSMessage) (frag : List Nat) (first fin : Bool) (t cap : Nat)
    (m : WSMessage) (ms : List WSMessage)
    (hroom : q.capacity = 0 ∨ q.items.length < q.capacity) :
    handleReceive cb conn q frag first fin = handleReceive cb' conn q frag first fin ∧
    (handleReceive cb conn q frag first true).2.items
      = q.items ++ [⟨conn.id, (if first then [] else conn.inbox) ++ frag⟩] ∧
    receiveMessage true q t = (none, q) ∧
    mainDispatcherStep ⟨m :: ms, cap, false⟩ = (.value m, ⟨ms, cap, false⟩) := by
  refine ⟨rfl, ?_, rfl, ?_⟩
  · simp only [handleReceive, offerTimeout, if_true]
    split
    · rfl
    · next hcond =>
      exact absurd hroom (by simpa using hcond)
  · simp [mainDispatcherStep, ConcurrentQueue.take]

/-- Witness for C3 (amended) on concrete inputs. -/
theorem receive_always_enqueues_witness :
    ((⟨[], 100, false⟩ : QState WSMessage).capacity = 0 ∨
      (⟨[], 100, false⟩ : QState WSMessage).items.length
        < (⟨[], 100, false⟩ : QState WSMessage).capacity) ∧
    (handleReceive true ⟨7, 0, [5], none, 0⟩ ⟨[], 100, false⟩ [1, 2] false true
      = handleReceive false ⟨7, 0, [5], none, 0⟩ ⟨[], 100, false⟩ [1, 2] false true ∧
     (handleReceive true ⟨7, 0, [5], none, 0⟩ ⟨[], 100, false⟩ [1, 2] false true).2.items
      = [] ++ [⟨7, (if false then [] else [5]) ++ [1, 2]⟩] ∧
     receiveMessage true ⟨[], 100, false⟩ 3 = (none, ⟨[], 100, false⟩) ∧
     mainDispatcherStep ⟨⟨1, [4]⟩ :: [], 0, false⟩ = (.value ⟨1, [4]⟩, ⟨[], 0, false⟩)) :=
  ⟨by decide,
    receive_always_enqueues true false ⟨7, 0, [5], none, 0⟩ ⟨[], 100, false⟩ [1, 2]
      false true 3 0 ⟨1, [4]⟩ [] (by decide)⟩

/-- C9: when the connection table already holds `MAX_CLIENTS` (64)
connections, `addConnection` returns null and leaves the table AND the
id-allocation sequence (`connectionIdSeq`) untouched, so a rejected
attempt consumes no id. -/
theorem addConnection_full_table_unchanged (t : ConnTable) (wsi : Nat)
    (h : MAX_CLIENTS ≤ t.conns.length) :
    addConnection t wsi = (none, t) := by
  simp [addConnection, h]

/-- Witness for C9 on a table holding 64 connections. -/
theorem addConnection_full_table_unchanged_witness :
    MAX_CLIENTS ≤ fullTable.conns.length ∧ addConnection fullTable 5 = (none, fullTable) :=
  ⟨by decide, addConnection_full_table_unchanged fullTable 5 (by decide)⟩

/-- C8: `start()` does nothing when the server thread already exists (the
code's running guard); otherwise it raises a configuration error, with the
server state untouched (no thread spawned, `keepWorking` unchanged),
exactly when the configuration is invalid in the claim's sense — both
ports disabled, the two ports equal, or the web directory missing — and on
a valid configuration it sets `keepWorking` and spawns the thread. -/
theorem start_behavior (s : ServerState) :
    (s.serverThreadExists = true → start s = (none, s)) ∧
    (s.serverThreadExists = false →
      (((start s).1.isSome = true) ↔ invalidConfigSpec s) ∧
      ((start s).1.isSome = true → (start s).2 = s) ∧
      (¬ invalidConfigSpec s →
        start s = (none, { s with keepWorking := true, serverThreadExists := true }))) := by
  obtain ⟨th, kw, p, sp, wd⟩ := s
  cases th
  · refine ⟨by simp, fun _ => ?_⟩
    by_cases h1 : p = sp
    · simp [start, invalidConfigSpec, h1]
    · by_cases h2 : p ≤ 0 ∧ sp ≤ 0
      · simp [start, invalidConfigSpec, h1, h2]
      · cases wd
        · simp [start, invalidConfigSpec, h1, h2]
        · simp [start, invalidConfigSpec, h1, h2]
  · exact ⟨fun _ => by simp [start], fun h => by simp at h⟩

/-- Helper: the writable-callback chain always writes at least one chunk. -/
theorem writeAllChunks_ne_nil (s : List Nat) (pos fuel : Nat) :
    writeAllChunks s pos fuel ≠ [] := by
  cases fuel with
  | zero => simp [writeAllChunks]
  | succ n =>
    simp only [writeAllChunks]
    split <;> simp

/-- Helper: with enough fuel, the chunk bytes written from cursor `pos`
on concatenate to exactly the unsent suffix of the payload. -/
theorem writeAllChunks_join (s : List Nat) : ∀ (fuel pos : Nat),
    s.length ≤ pos + MAX_PAYLOAD * fuel + MAX_PAYLOAD →
    ((writeAllChunks s pos fuel).map Chunk.data).flatten = s.drop pos := by
  intro fuel
  induction fuel with
  | zero =>
    intro pos h
    have hle : s.length ≤ pos + MAX_PAYLOAD := by
      simpa using h
    have hmin : min s.length (pos + MAX_PAYLOAD) = s.length := min_eq_left hle
    simp only [writeAllChunks, writeChunk, hmin, List.map_cons, List.map_nil,
      List.flatten_cons, List.flatten_nil, List.append_nil]
    rw [← List.length_drop, List.take_length]
  | succ fuel ih =>
    intro pos h
    by_cases hfin : s.length ≤ pos + MAX_PAYLOAD
    · have hmin : min s.length (pos + MAX_PAYLOAD) = s.length := min_eq_left hfin
      simp only [writeAllChunks, writeChunk, hmin, decide_eq_true_eq, if_pos hfin,
        List.map_cons, List.map_nil, List.flatten_cons, List.flatten_nil, List.append_nil]
      rw [← List.length_drop, List.take_length]
    · have hmin : min s.length (pos + MAX_PAYLOAD) = pos + MAX_PAYLOAD :=
        min_eq_right (le_of_not_le hfin)
      have hrec := ih (pos + MAX_PAYLOAD)
        (by simp only [MAX_PAYLOAD] at h ⊢; omega)
      simp only [writeAllChunks, writeChunk, hmin, decide_eq_true_eq, if_neg hfin,
        List.map_cons, List.flatten_cons, hrec]
      have : pos + MAX_PAYLOAD - pos = MAX_PAYLOAD := by omega
      rw [this]
      exact List.drop_take_append_drop s pos MAX_PAYLOAD

/-- Helper: with enough fuel, the number of chunks written from cursor
`pos` is `(remaining - 1) / MAX_PAYLOAD + 1` (Nat arithmetic: one chunk
when nothing remains). -/
theorem writeAllChunks_length (s : List Nat) : ∀ (fuel pos : Nat),
    s.length ≤ pos + MAX_PAYLOAD * fuel + MAX_PAYLOAD →
    (writeAllChunks s pos fuel).length = (s.length - pos - 1) / MAX_PAYLOAD + 1 := by
  intro fuel
  induction fuel with
  | zero =>
    intro pos h
    have hle : s.length ≤ pos + MAX_PAYLOAD := by simpa using h
    simp only [writeAllChunks, List.length_cons, List.length_nil]
    have : (s.length - pos - 1) / MAX_PAYLOAD = 0 := by
      apply Nat.div_eq_of_lt
      simp only [MAX_PAYLOAD] at hle ⊢
      omega
    omega
  | succ fuel ih =>
    intro pos h
    by_cases hfin : s.length ≤ pos + MAX_PAYLOAD
    · simp only [writeAllChunks, writeChunk, decide_eq_true_eq, if_pos hfin,
        List.length_cons, List.length_nil]
      have : (s.length - pos - 1) / MAX_PAYLOAD = 0 := by
        apply Nat.div_eq_of_lt
        simp only [MAX_PAYLOAD] at hfin ⊢
        omega
      omega
    · have hmin : min s.length (pos + MAX_PAYLOAD) = pos + MAX_PAYLOAD :=
        min_eq_right (le_of_not_le hfin)
      have hrec := ih (pos + MAX_PAYLOAD)
        (by simp only [MAX_PAYLOAD] at h ⊢; omega)
      simp only [writeAllChunks, writeChunk, hmin, decide_eq_true_eq, if_neg hfin,
        List.length_cons, hrec]
      simp only [MAX_PAYLOAD] at hfin ⊢
      omega

/-- Helper: every chunk written from a nonzero cursor has the
first-fragment flag cleared (`start == 0` fails). -/
theorem writeAllChunks_first_flags (s : List Nat) : ∀ (fuel pos : Nat), 0 < pos →
    (writeAllChunks s pos fuel).map Chunk.first
      = List.replicate (writeAllChunks s pos fuel).length false := by
  intro fuel
  induction fuel with
  | zero =>
    intro pos hpos
    have hpos' : pos ≠ 0 := Nat.pos_iff_ne_zero.mp hpos
    simp only [writeAllChunks, writeChunk, List.map_cons, List.map_nil,
      List.length_cons, List.length_nil, List.replicate_succ, List.replicate_zero]
    simp [hpos']
  | succ fuel ih =>
    intro pos hpos
    have hpos' : pos ≠ 0 := Nat.pos_iff_ne_zero.mp hpos
    by_cases hfin : s.length ≤ pos + MAX_PAYLOAD
    · simp only [writeAllChunks, writeChunk, decide_eq_true_eq, if_pos hfin,
        List.map_cons, List.map_nil, List.length_cons, List.length_nil,
        List.replicate_succ, List.replicate_zero]
      simp [hpos']
    · have hmin : min s.length (pos + MAX_PAYLOAD) = pos + MAX_PAYLOAD :=
        min_eq_right (le_of_not_le hfin)
      have hend : 0 < pos + MAX_PAYLOAD := by omega
      simp only [writeAllChunks, writeChunk, hmin, decide_eq_true_eq, if_neg hfin,
        List.map_cons, List.length_cons, List.replicate_succ,
        ih (pos + MAX_PAYLOAD) hend]
      simp [hpos']

/-- Helper: starting at cursor 0, the first chunk carries the
first-fragment flag and all later chunks do not. -/
theorem writeAllChunks_first_flags_zero (s : List Nat) (fuel : Nat) :
    (writeAllChunks s 0 fuel).map Chunk.first
      = true :: List.replicate ((writeAllChunks s 0 fuel).length - 1) false := by
  cases fuel with
  | zero => simp [writeAllChunks, writeChunk]
  | succ n =>
    by_cases hfin : s.length ≤ MAX_PAYLOAD
    · simp [writeAllChunks, writeChunk, hfin]
    · have hmin : min s.length MAX_PAYLOAD = MAX_PAYLOAD :=
        min_eq_right (le_of_not_le hfin)
      have hpos : (0 : Nat) < MAX_PAYLOAD := by simp [MAX_PAYLOAD]
      simp only [writeAllChunks, writeChunk, Nat.zero_add, hmin, decide_eq_true_eq,
        if_neg hfin, List.map_cons, List.length_cons,
        writeAllChunks_first_flags s n MAX_PAYLOAD hpos]
      simp

/-- Helper: with enough fuel, the final-fragment flag is false on every
chunk except the last one, which carries it. -/
theorem writeAllChunks_final_flags (s : List Nat) : ∀ (fuel pos : Nat),
    s.length ≤ pos + MAX_PAYLOAD * fuel + MAX_PAYLOAD →
    (writeAllChunks s pos fuel).map Chunk.final
      = List.replicate ((writeAllChunks s pos fuel).length - 1) false ++ [true] := by
  intro fuel
  induction fuel with
  | zero =>
    intro pos h
    have hle : s.length ≤ pos + MAX_PAYLOAD := by simpa using h
    simp [writeAllChunks, writeChunk, hle]
  | succ fuel ih =>
    intro pos h
    by_cases hfin : s.length ≤ pos + MAX_PAYLOAD
    · simp [writeAllChunks, writeChunk, hfin]
    · have hmin : min s.length (pos + MAX_PAYLOAD) = pos + MAX_PAYLOAD :=
        min_eq_right (le_of_not_le hfin)
      have hrec := ih (pos + MAX_PAYLOAD)
        (by simp only [MAX_PAYLOAD] at h ⊢; omega)
      have hne := writeAllChunks_ne_nil s (pos + MAX_PAYLOAD) fuel
      obtain ⟨n0, hn0⟩ : ∃ n0, (writeAllChunks s (pos + MAX_PAYLOAD) fuel).length = n0 + 1 := by
        cases hL : (writeAllChunks s (pos + MAX_PAYLOAD) fuel).length with
        | zero => exact absurd (List.length_eq_zero.mp hL) hne
        | succ n => exact ⟨n, rfl⟩
      simp only [writeAllChunks, writeChunk, hmin, decide_eq_true_eq, if_neg hfin,
        List.map_cons, List.length_cons, hrec, hn0]
      simp [hfin, List.replicate_succ]

/-- C1: for every payload assigned to a connection's outbox with cursor 0
and frame size `MAX_PAYLOAD = 4096`, the chunks written across successive
writable callbacks concatenate (in callback order) to exactly the payload
bytes, their number is `ceil(L / 4096)` with an empty payload still
producing one chunk, the first-fragment flag is set exactly on the chunk
starting at cursor 0, and the final-fragment flag exactly on the chunk
reaching the payload's end (the last one). -/
theorem outbound_chunking_correct (s : List Nat) :
    ((connectionChunks s).map Chunk.data).flatten = s ∧
    (connectionChunks s).length
      = (if s.length = 0 then 1 else (s.length + (MAX_PAYLOAD - 1)) / MAX_PAYLOAD) ∧
    (connectionChunks s).map Chunk.first
      = true :: List.replicate ((connectionChunks s).length - 1) false ∧
    (connectionChunks s).map Chunk.final
      = List.replicate ((connectionChunks s).length - 1) false ++ [true] := by
  have hfuel : s.length ≤ 0 + MAX_PAYLOAD * s.length + MAX_PAYLOAD := by
    simp only [MAX_PAYLOAD]
    omega
  refine ⟨?_, ?_, ?_, ?_⟩
  · simpa using writeAllChunks_join s s.length 0 hfuel
  · rw [connectionChunks, writeAllChunks_length s s.length 0 hfuel]
    simp only [MAX_PAYLOAD]
    by_cases h0 : s.length = 0
    · simp [h0]
    · rw [if_neg h0]
      omega
  · rw [connectionChunks]
    exact writeAllChunks_first_flags_zero s s.length
  · rw [connectionChunks]
    exact writeAllChunks_final_flags s s.length 0 hfuel

/-- Helper: one connect/disconnect cycle performed while connection 1
stays live, with the sequence counter at `2 ≤ k < 2^32`, hands out id `k`
and advances the counter to `k + 1`, leaving only connection 1 live. -/
theorem addRemoveCycle_advance (k : Nat) (hk : 2 ≤ k) (hlim : k + 1 < UINT32_LIMIT) :
    addRemoveCycle ⟨k, [firstConn]⟩ = ⟨k + 1, [firstConn]⟩ := by
  have hk0 : ¬ (k = 0) := by omega
  have hklt1 : ¬ (k < 1) := by omega
  have hkne1 : ¬ (k = 1) := by omega
  have hmod : (k + 1) % UINT32_LIMIT = k + 1 := Nat.mod_eq_of_lt hlim
  have hbeq : ((1 : Nat) == k) = false := by
    simp
    omega
  have hadd : addConnection ⟨k, [firstConn]⟩ 0
      = (some ⟨k, 0, [], none, 0⟩, ⟨k + 1, [firstConn, ⟨k, 0, [], none, 0⟩]⟩) := by
    simp [addConnection, MAX_CLIENTS, firstConn, emplaceConn, findConn,
      hk0, hklt1, hkne1, hmod, hbeq]
  have hbne : ((1 : Nat) != k) = true := by
    simp
    omega
  simp only [addRemoveCycle, hadd]
  simp [removeConnection, firstConn, hbne]

/-- Helper: `n` connect/disconnect cycles advance the counter by `n`
(without reaching the wrap) while connection 1 stays live. -/
theorem addRemoveCycles_advance : ∀ (n k : Nat), 2 ≤ k → k + n < UINT32_LIMIT →
    addRemoveCycles n ⟨k, [firstConn]⟩ = ⟨k + n, [firstConn]⟩ := by
  intro n
  induction n with
  | zero => intro k hk hlim; simp [addRemoveCycles]
  | succ n ih =>
    intro k hk hlim
    have hstep : addRemoveCycle ⟨k, [firstConn]⟩ = ⟨k + 1, [firstConn]⟩ :=
      addRemoveCycle_advance k hk (by omega)
    have hrest := ih (k + 1) (by omega) (by omega)
    simp only [addRemoveCycles, hstep, hrest]
    congr 1
    omega

/-- C4 (code bug exhibit): one client connects (getting id 1, lws handle
100) and stays live; then `2^32 - 3` clients connect and disconnect,
driving `connectionIdSeq` up to `2^32 - 1`; one more connect/disconnect
cycle wraps the counter to 0.  The next `addConnection` then bumps the
counter past 0 and hands out id 1 AGAIN even though connection 1 is still
live: `std::map::emplace` silently fails, the table keeps only the old
entry, and the returned pointer is the OLD live connection (handle 100,
not the new client's 999) — two live lws sessions now share one id and
one `WSConnection` record, contradicting "an id is never reused while a
live connection still holds it". -/
theorem addConnection_id_reuse_after_wrap :
    (addConnection ⟨1, []⟩ 100).2 = ⟨2, [firstConn]⟩ ∧
    addRemoveCycles (UINT32_LIMIT - 3) ⟨2, [firstConn]⟩
      = ⟨UINT32_LIMIT - 1, [firstConn]⟩ ∧
    addRemoveCycle ⟨UINT32_LIMIT - 1, [firstConn]⟩ = ⟨0, [firstConn]⟩ ∧
    (addConnection ⟨0, [firstConn]⟩ 999).1 = some firstConn ∧
    (addConnection ⟨0, [firstConn]⟩ 999).2 = ⟨2, [firstConn]⟩ := by
  refine ⟨by decide, ?_, ?_, by decide, by decide⟩
  · have h := addRemoveCycles_advance (UINT32_LIMIT - 3) 2 (by norm_num)
      (by simp only [UINT32_LIMIT]; norm_num)
    rw [h]
    simp only [UINT32_LIMIT]
    norm_num
  · have hk : 2 ≤ UINT32_LIMIT - 1 := by simp only [UINT32_LIMIT]; norm_num
    have hadd : addConnection ⟨UINT32_LIMIT - 1, [firstConn]⟩ 0
        = (some ⟨UINT32_LIMIT - 1, 0, [], none, 0⟩,
           ⟨0, [firstConn, ⟨UINT32_LIMIT - 1, 0, [], none, 0⟩]⟩) := by
      have h1 : ¬ (UINT32_LIMIT - 1 = 0) := by simp only [UINT32_LIMIT]; norm_num
      have h2 : ¬ (UINT32_LIMIT - 1 < 1) := by simp only [UINT32_LIMIT]; norm_num
      have h3 : ¬ (UINT32_LIMIT - 1 = 1) := by simp only [UINT32_LIMIT]; norm_num
      have h4 : (UINT32_LIMIT - 1 + 1) % UINT32_LIMIT = 0 := by
        simp only [UINT32_LIMIT]
        norm_num
      have h5 : ((1 : Nat) == UINT32_LIMIT - 1) = false := by
        simp only [UINT32_LIMIT]
        decide
      simp [addConnection, MAX_CLIENTS, firstConn, emplaceConn, findConn,
        h1, h2, h3, h4, h5]
    have h6 : ((1 : Nat) != UINT32_LIMIT - 1) = true := by
      simp only [UINT32_LIMIT]
      decide
    simp only [addRemoveCycle, hadd]
    simp [removeConnection, firstConn, h6]

/-- Witness for C8: an already-started server is left alone; a config with
both ports disabled errors; a valid config starts the thread. -/
theorem start_behavior_witness :
    start ⟨true, true, 80, 443, true⟩ = (none, ⟨true, true, 80, 443, true⟩) ∧
    ((start ⟨false, false, 0, -1, true⟩).1.isSome = true) ∧
    start ⟨false, false, 8080, -1, true⟩ = (none, ⟨true, true, 8080, -1, true⟩) := by
  refine ⟨(start_behavior _).1 rfl, ?_, ?_⟩
  · exact ((start_behavior _).2 rfl).1.mpr (Or.inl ⟨by norm_num, by norm_num⟩)
  · exact ((start_behavior _).2 rfl).2.2 (by decide)

end Webserver

end Lwsdk
